import Mathlib

/-!
Verification of the filtering-and-aggregation pipeline of the e-commerce
dashboard (src/dashboard/app.py).

Timestamps are modelled at minute granularity: a timestamp carries its
calendar year and month (used by the derived `year_month` column and the
2018 restriction), an absolute day number `absDay` (days since an arbitrary
epoch) and the minute of that day `minuteOfDay` (0 .. 1439, from which the
derived `order_hour` is computed).  The instant a timestamp denotes is
`absDay * 1440 + minuteOfDay` minutes since the epoch; pandas comparisons
between timestamps compare these instants.  A python `date` value is an
absolute day number, and `pd.to_datetime(date)` is the midnight instant
`day * 1440`.  Monetary amounts and means are modelled as rationals.
-/

structure Timestamp where
  year : Int
  month : Nat
  absDay : Int
  minuteOfDay : Nat
deriving DecidableEq, Repr

/-- The instant, in minutes since the epoch, that a timestamp denotes. -/
def tsAbsMinutes (t : Timestamp) : Int :=
  t.absDay * 1440 + t.minuteOfDay

/-- A raw CSV cell holding `order_delivered_customer_date` before parsing:
either empty, or text that does not parse as a timestamp, or a valid
timestamp. -/
inductive RawStamp where
  | missing
  | unparsable
  | valid (t : Timestamp)
deriving DecidableEq, Repr

/-- Embedding of `pd.to_datetime(col, errors="coerce")` on a single cell:
missing or unparsable cells become the absent marker NaT. -/
def parseCoerce : RawStamp → Option Timestamp
  | .missing => none
  | .unparsable => none
  | .valid t => some t

/-- One CSV row as read by `pd.read_csv`, with `order_purchase_timestamp`
already parsed (app.py parses it without `errors="coerce"`; an unparsable
value there is a fatal error, so rows reaching the pipeline carry a valid
purchase timestamp). -/
structure RawOrder where
  order_purchase_timestamp : Timestamp
  order_delivered_customer_date : RawStamp
  product_category_name : Option String
  payment_type : Option String
  payment_value : Rat
  customer_id : Option String
deriving DecidableEq, Repr

/-- One dataframe row after `load_data`: the parsed columns together with
the derived columns `shipping_time`, `order_hour` and `year_month`. -/
structure Order where
  order_purchase_timestamp : Timestamp
  order_delivered_customer_date : Option Timestamp
  product_category_name : Option String
  payment_type : Option String
  payment_value : Rat
  customer_id : Option String
  shipping_time : Option Int
  order_hour : Nat
  year_month : Int × Nat
deriving DecidableEq, Repr

/-- Row-wise embedding of the body of `load_data` (app.py lines 16-30):
coerce the delivery date, derive `shipping_time` as the whole-day (floor)
difference of the two instants (pandas `.dt.days` floors the timedelta),
`order_hour` as the hour component of the purchase timestamp and
`year_month` as its calendar year-month period. -/
def loadRecord (r : RawOrder) : Order :=
  let delivered := parseCoerce r.order_delivered_customer_date
  { order_purchase_timestamp := r.order_purchase_timestamp
    order_delivered_customer_date := delivered
    product_category_name := r.product_category_name
    payment_type := r.payment_type
    payment_value := r.payment_value
    customer_id := r.customer_id
    shipping_time := delivered.map fun d =>
      Int.fdiv (tsAbsMinutes d - tsAbsMinutes r.order_purchase_timestamp) 1440
    order_hour := r.order_purchase_timestamp.minuteOfDay / 60
    year_month := (r.order_purchase_timestamp.year, r.order_purchase_timestamp.month) }

/-- Embedding of `load_data` applied to the whole CSV. -/
def load_data (rows : List RawOrder) : List Order :=
  rows.map loadRecord

/-- The six filter parameters chosen in the sidebar (app.py lines 48-63):
`start_date` and `end_date` are calendar dates (absolute day numbers),
the two selections are lists of non-absent values, and the price slider
yields an inclusive range. -/
structure FilterParams where
  start_date : Int
  end_date : Int
  selected_category : List String
  selected_payment : List String
  min_price : Rat
  max_price : Rat
deriving DecidableEq, Repr

/-- The per-row inclusion predicate of the filter (app.py lines 66-70).
`pd.to_datetime(start_date)` and `pd.to_datetime(end_date)` are the
midnight instants of the two dates; `.isin` on an absent (NaN) category or
payment type is false; `.between` is inclusive on both ends. -/
def inFilter (p : FilterParams) (o : Order) : Bool :=
  decide (p.start_date * 1440 ≤ tsAbsMinutes o.order_purchase_timestamp) &&
  decide (tsAbsMinutes o.order_purchase_timestamp ≤ p.end_date * 1440) &&
  (match o.product_category_name with
   | some c => p.selected_category.contains c
   | none => false) &&
  (match o.payment_type with
   | some t => p.selected_payment.contains t
   | none => false) &&
  decide (p.min_price ≤ o.payment_value) &&
  decide (o.payment_value ≤ p.max_price)

/-- Embedding of `filtered_df` (app.py lines 66-70). -/
def filtered_df (df : List Order) (p : FilterParams) : List Order :=
  df.filter (inFilter p)

/-- Descending order on counts, the sort used by `value_counts()`. -/
def countDesc (a b : String × Nat) : Bool :=
  decide (b.2 ≤ a.2)

/-- Embedding of `top_categories` (app.py lines 84-90):
`value_counts()` counts each distinct non-absent category, sorts the
(category, count) pairs by descending count, and `head(10)` keeps the
first ten rows. -/
def top_categories (v : List Order) : List (String × Nat) :=
  let cats := v.filterMap fun o => o.product_category_name
  ((cats.dedup.map fun c => (c, cats.count c)).mergeSort countDesc).take 10

/-- Ascending order on year-month periods (year first, then month), the
order in which pandas sorts `Period` group keys. -/
def ymLe (a b : Int × Nat) : Bool :=
  decide (a.1 < b.1) || (decide (a.1 = b.1) && decide (a.2 ≤ b.2))

/-- Embedding of `monthly_revenue` (app.py line 108): restrict the
filtered view to rows whose purchase year is 2018, group by `year_month`
(groupby sorts the keys ascending and drops no key since every key comes
from a row), and sum `payment_value` within each group. -/
def monthly_revenue (v : List Order) : List ((Int × Nat) × Rat) :=
  let sub := v.filter fun o => decide (o.order_purchase_timestamp.year = 2018)
  let keys := ((sub.map fun o => o.year_month).dedup).mergeSort ymLe
  keys.map fun ym =>
    (ym, ((sub.filter fun o => decide (o.year_month = ym)).map
            fun o => o.payment_value).sum)

/-- The series handed to the hourly histogram (app.py line 122): the
`order_hour` column of the filtered view. -/
def order_hour_values (v : List Order) : List Nat :=
  v.map fun o => o.order_hour

/-- Ascending key order used by groupby on string keys. -/
def strAsc (a b : String) : Bool :=
  decide (a ≤ b)

/-- Ascending order on means, the sort used by `sort_values(ascending=True)`. -/
def meanAsc (a b : String × Rat) : Bool :=
  decide (a.2 ≤ b.2)

/-- The non-absent shipping times of the rows of `v` whose category is
`c`: the series whose mean `groupby(...)["shipping_time"].mean()` takes
(pandas means skip NaN values). -/
def shippingVals (v : List Order) (c : String) : List Int :=
  v.filterMap fun o =>
    if o.product_category_name = some c then o.shipping_time else none

/-- Embedding of `avg_shipping_time` (app.py line 132): group the filtered
view by category (groupby drops rows with absent category and sorts the
keys), take the mean of the non-absent `shipping_time` values of each
group (a group whose values are all absent has mean NaN and is removed by
`dropna()`), sort ascending by mean and keep the first ten. -/
def avg_shipping_time (v : List Order) : List (String × Rat) :=
  let keys := ((v.filterMap fun o => o.product_category_name).dedup).mergeSort strAsc
  let means := keys.filterMap fun c =>
    let vals := shippingVals v c
    if vals = [] then none
    else some (c, ((vals.map fun d => (d : Rat)).sum) / (vals.length : Rat))
  (means.mergeSort meanAsc).take 10

/-- Embedding of `total_orders` (app.py line 146). -/
def total_orders (v : List Order) : Nat :=
  v.length

/-- Embedding of `total_customers` (app.py line 150): `nunique()` counts
the distinct non-absent `customer_id` values. -/
def total_customers (v : List Order) : Nat :=
  ((v.filterMap fun o => o.customer_id).dedup).length

/-- Embedding of `total_revenue` (app.py line 154). -/
def total_revenue (v : List Order) : Rat :=
  (v.map fun o => o.payment_value).sum

/-- The minimal purchase instant observed in a dataset (minutes). -/
def observedMinTs (df : List Order) : Int :=
  ((df.map fun o => tsAbsMinutes o.order_purchase_timestamp).min?).getD 0

/-- The maximal purchase instant observed in a dataset (minutes). -/
def observedMaxTs (df : List Order) : Int :=
  ((df.map fun o => tsAbsMinutes o.order_purchase_timestamp).max?).getD 0

/-- The filter parameters built from the dataset-wide bounds: the calendar
dates of the observed min and max purchase timestamps
(`df[col].min().date()` and `.max().date()`, app.py lines 48-49), the full
list of distinct non-absent categories and payment types (lines 52, 56),
and the observed min and max payment value (lines 60-63). -/
def fullBoundsParams (df : List Order) : FilterParams :=
  { start_date := (observedMinTs df).fdiv 1440
    end_date := (observedMaxTs df).fdiv 1440
    selected_category := (df.filterMap fun o => o.product_category_name).dedup
    selected_payment := (df.filterMap fun o => o.payment_type).dedup
    min_price := ((df.map fun o => o.payment_value).min?).getD 0
    max_price := ((df.map fun o => o.payment_value).max?).getD 0 }

/-- Everything the pipeline hands to the presentation layer for one run:
the four aggregation results and the three summary metrics, as a function
of the raw rows and the filter parameters. -/
def dashboard_results (rows : List RawOrder) (p : FilterParams) :
    List (String × Nat) × List ((Int × Nat) × Rat) × List Nat ×
      List (String × Rat) × Nat × Nat × Rat :=
  let v := filtered_df (load_data rows) p
  (top_categories v, monthly_revenue v, order_hour_values v,
   avg_shipping_time v, total_orders v, total_customers v, total_revenue v)

/-! ## Helper lemmas -/

theorem optionMatch_contains_iff (x : Option String) (s : List String) :
    (match x with | some c => s.contains c | none => false) = true ↔
      ∃ c, x = some c ∧ c ∈ s := by
  cases x with
  | none => simp
  | some c => simp [List.contains]

theorem mem_filtered_df {df : List Order} {p : FilterParams} {o : Order} :
    o ∈ filtered_df df p ↔
      o ∈ df ∧
      p.start_date * 1440 ≤ tsAbsMinutes o.order_purchase_timestamp ∧
      tsAbsMinutes o.order_purchase_timestamp ≤ p.end_date * 1440 ∧
      (∃ c, o.product_category_name = some c ∧ c ∈ p.selected_category) ∧
      (∃ t, o.payment_type = some t ∧ t ∈ p.selected_payment) ∧
      p.min_price ≤ o.payment_value ∧ o.payment_value ≤ p.max_price := by
  rw [filtered_df, List.mem_filter, inFilter]
  simp only [Bool.and_eq_true, decide_eq_true_eq, optionMatch_contains_iff]
  tauto

/-! ## Concrete values used by witnesses and counterexamples -/

/-- A timestamp at 10:00 on day 200. -/
def tsNoonish : Timestamp := ⟨2018, 5, 200, 600⟩

/-- An order whose purchase timestamp lies strictly after midnight. -/
def oW : Order :=
  ⟨tsNoonish, none, some "beleza_saude", some "credit_card", 50, some "c1",
   none, 10, (2018, 5)⟩

/-- Parameters whose end date is the calendar date of the purchase of `oW`. -/
def pW10 : FilterParams :=
  ⟨100, 200, ["beleza_saude"], ["credit_card"], 0, 100⟩

/-- Filter parameters used to build an empty filtered view. -/
def pEmpty : FilterParams := ⟨0, 0, [], [], 0, 0⟩

/-- Purchase timestamp 2018-03-05 10:00 (absolute day 17595). -/
def purchW : Timestamp := ⟨2018, 3, 17595, 600⟩

/-- Delivery timestamp 2018-03-08 10:00, three days later. -/
def delivW : Timestamp := ⟨2018, 3, 17598, 600⟩

/-- A raw row with a valid delivery date three days after purchase. -/
def rW : RawOrder :=
  ⟨purchW, RawStamp.valid delivW, some "beleza_saude", some "boleto", 120, some "c2"⟩

/-- An order with an absent customer id. -/
def oNoCust : Order :=
  ⟨tsNoonish, none, some "beleza_saude", some "boleto", 1, none, none, 10, (2018, 5)⟩

/-! ## Claims -/

/-- Claim C1: a record is in the filtered view iff it is in the dataset,
its purchase instant lies between the midnight instants of start_date and
end_date, its category is present and selected (absent excluded), its
payment type is present and selected (absent excluded), and its payment
value lies in the inclusive price range. -/
theorem C1_filter_inclusion (df : List Order) (p : FilterParams) (o : Order) :
    o ∈ filtered_df df p ↔
      o ∈ df ∧
      p.start_date * 1440 ≤ tsAbsMinutes o.order_purchase_timestamp ∧
      tsAbsMinutes o.order_purchase_timestamp ≤ p.end_date * 1440 ∧
      (∃ c, o.product_category_name = some c ∧ c ∈ p.selected_category) ∧
      (∃ t, o.payment_type = some t ∧ t ∈ p.selected_payment) ∧
      p.min_price ≤ o.payment_value ∧ o.payment_value ≤ p.max_price :=
  mem_filtered_df

/-- Claim C6: when the filtered view is empty, total_revenue is exactly 0,
total_orders is exactly 0, and the four aggregations all return the empty
result. -/
theorem C6_empty_view (df : List Order) (p : FilterParams)
    (h : filtered_df df p = []) :
    total_revenue (filtered_df df p) = 0 ∧
    total_orders (filtered_df df p) = 0 ∧
    top_categories (filtered_df df p) = [] ∧
    monthly_revenue (filtered_df df p) = [] ∧
    order_hour_values (filtered_df df p) = [] ∧
    avg_shipping_time (filtered_df df p) = [] := by
  rw [h]
  refine ⟨rfl, rfl, ?_, ?_, rfl, ?_⟩ <;>
    simp [top_categories, monthly_revenue, avg_shipping_time]

/-- Witness for C6 at the empty dataset. -/
theorem C6_empty_view_witness :
    total_revenue (filtered_df [] pEmpty) = 0 ∧
    total_orders (filtered_df [] pEmpty) = 0 ∧
    top_categories (filtered_df [] pEmpty) = [] ∧
    monthly_revenue (filtered_df [] pEmpty) = [] ∧
    order_hour_values (filtered_df [] pEmpty) = [] ∧
    avg_shipping_time (filtered_df [] pEmpty) = [] :=
  C6_empty_view [] pEmpty rfl

/-- Claim C7: shipping_time is absent iff the raw delivery date is missing
or unparsable, and when the delivery timestamp is present it is the
whole-day (floor) difference between delivery and purchase instants. -/
theorem C7_shipping_time_spec (r : RawOrder) :
    ((loadRecord r).shipping_time = none ↔
      r.order_delivered_customer_date = RawStamp.missing ∨
      r.order_delivered_customer_date = RawStamp.unparsable) ∧
    ∀ d, r.order_delivered_customer_date = RawStamp.valid d →
      (loadRecord r).shipping_time =
        some (Int.fdiv (tsAbsMinutes d - tsAbsMinutes r.order_purchase_timestamp) 1440) := by
  cases h : r.order_delivered_customer_date <;>
    simp [loadRecord, parseCoerce, h]

/-- Witness for C7: purchase 2018-03-05 10:00 and delivery 2018-03-08
10:00 give shipping_time 3, matching the example in the spec. -/
theorem C7_shipping_time_spec_witness : (loadRecord rW).shipping_time = some 3 := by
  have h := (C7_shipping_time_spec rW).2 delivW rfl
  rw [h]
  decide

/-- Claim C8: two runs of the pipeline on the same dataset and the same
filter parameters produce identical aggregation results and metrics; the
embedded pipeline is a pure function of its inputs, so tie order within
equal counts or means is reproduced exactly. -/
theorem C8_deterministic (r1 r2 : List RawOrder) (p1 p2 : FilterParams)
    (hr : r1 = r2) (hp : p1 = p2) :
    dashboard_results r1 p1 = dashboard_results r2 p2 := by
  rw [hr, hp]

/-- Witness for C8 at a concrete dataset and parameter choice. -/
theorem C8_deterministic_witness :
    dashboard_results [rW] pW10 = dashboard_results [rW] pW10 :=
  C8_deterministic [rW] [rW] pW10 pW10 rfl rfl

/-- Claim C9: total_customers is the number of distinct present customer
ids of the view, and a record whose customer id is absent does not change
the count. -/
theorem C9_total_customers_distinct (v : List Order) (o : Order)
    (h : o.customer_id = none) :
    total_customers v = ((v.filterMap fun x => x.customer_id).toFinset).card ∧
    total_customers (o :: v) = total_customers v := by
  constructor
  · simp [total_customers, List.card_toFinset]
  · simp [total_customers, List.filterMap_cons, h]

/-- Witness for C9 with a concrete record carrying an absent customer id. -/
theorem C9_total_customers_distinct_witness :
    total_customers [oW] =
      (([oW].filterMap fun x => x.customer_id).toFinset).card ∧
    total_customers (oNoCust :: [oW]) = total_customers [oW] :=
  C9_total_customers_distinct [oW] oNoCust rfl

/-- Claim C10: the upper bound of the date filter is the midnight instant
of end_date, so a record whose purchase falls on end_date strictly after
midnight is excluded from the filtered view. -/
theorem C10_end_date_midnight_bound (df : List Order) (p : FilterParams)
    (o : Order)
    (hd : o.order_purchase_timestamp.absDay = p.end_date)
    (hm : 0 < o.order_purchase_timestamp.minuteOfDay) :
    o ∉ filtered_df df p := by
  intro hmem
  have h := (mem_filtered_df.mp hmem).2.2.1
  rw [tsAbsMinutes, hd] at h
  omega

/-- Witness for C10: a record purchased at 10:00 on the end date is
excluded even though every other filter condition accepts it. -/
theorem C10_end_date_midnight_bound_witness :
    oW.order_purchase_timestamp.absDay = pW10.end_date ∧
    0 < oW.order_purchase_timestamp.minuteOfDay ∧
    inFilter pW10 oW = false ∧
    oW ∉ filtered_df [oW] pW10 :=
  ⟨rfl, by decide, by decide,
   C10_end_date_midnight_bound [oW] pW10 oW rfl (by decide)⟩

/-! ## Sorting helper lemmas -/

theorem countDesc_trans (a b c : String × Nat) :
    countDesc a b → countDesc b c → countDesc a c := by
  simp only [countDesc, decide_eq_true_eq]
  omega

theorem countDesc_total (a b : String × Nat) :
    countDesc a b || countDesc b a := by
  simp only [countDesc, Bool.or_eq_true, decide_eq_true_eq]
  omega

theorem meanAsc_trans (a b c : String × Rat) :
    meanAsc a b → meanAsc b c → meanAsc a c := by
  simp only [meanAsc, decide_eq_true_eq]
  exact le_trans

theorem meanAsc_total (a b : String × Rat) :
    meanAsc a b || meanAsc b a := by
  simp only [meanAsc, Bool.or_eq_true, decide_eq_true_eq]
  exact le_total a.2 b.2

/-- The general shape of `top_categories` on an arbitrary view. -/
theorem top_categories_props (v : List Order) :
    (top_categories v).length ≤ 10 ∧
    List.Pairwise (fun a b => b.2 ≤ a.2) (top_categories v) ∧
    ((top_categories v).map Prod.fst).Nodup ∧
    ∀ x ∈ top_categories v,
      (∃ o ∈ v, o.product_category_name = some x.1) ∧
      x.2 = v.countP fun o => o.product_category_name == some x.1 := by
  simp only [top_categories]
  refine ⟨by simp, ?_, ?_, ?_⟩
  · exact (List.Pairwise.sublist (List.take_sublist 10 _)
      (List.sorted_mergeSort countDesc_trans countDesc_total _)).imp
        (fun h => by simpa [countDesc] using h)
  · have hp : List.Perm
        (((((v.filterMap fun o => o.product_category_name).dedup).map
          fun c => (c, (v.filterMap fun o => o.product_category_name).count c)).mergeSort
            countDesc).map Prod.fst)
        ((v.filterMap fun o => o.product_category_name).dedup) := by
      refine ((List.mergeSort_perm _ _).map Prod.fst).trans ?_
      have hid : (Prod.fst ∘ fun c : String =>
          (c, (v.filterMap fun o => o.product_category_name).count c)) = id := rfl
      rw [List.map_map, hid, List.map_id]
    rw [List.map_take]
    exact List.Nodup.sublist (List.take_sublist 10 _)
      (hp.nodup_iff.mpr (List.nodup_dedup _))
  · intro x hx
    have hx1 := List.mem_of_mem_take hx
    rw [List.mem_mergeSort] at hx1
    obtain ⟨c, hc, rfl⟩ := List.mem_map.mp hx1
    constructor
    · obtain ⟨o, ho, hoc⟩ := List.mem_filterMap.mp (List.mem_dedup.mp hc)
      exact ⟨o, ho, hoc⟩
    · exact List.count_filterMap c (fun o => o.product_category_name) v

/-- Claim C3: the top-categories aggregation of any filtered view returns
at most 10 rows of distinct categories, each row pairing a category that
occurs (non-absent) in the view with the number of records carrying it,
ordered by non-increasing count. -/
theorem C3_top_categories_spec (df : List Order) (p : FilterParams) :
    (top_categories (filtered_df df p)).length ≤ 10 ∧
    List.Pairwise (fun a b => b.2 ≤ a.2) (top_categories (filtered_df df p)) ∧
    ((top_categories (filtered_df df p)).map Prod.fst).Nodup ∧
    ∀ x ∈ top_categories (filtered_df df p),
      (∃ o ∈ filtered_df df p, o.product_category_name = some x.1) ∧
      x.2 = (filtered_df df p).countP fun o =>
        o.product_category_name == some x.1 :=
  top_categories_props (filtered_df df p)

/-- The general shape of `avg_shipping_time` on an arbitrary view. -/
theorem avg_shipping_time_props (v : List Order) :
    (avg_shipping_time v).length ≤ 10 ∧
    List.Pairwise (fun a b => a.2 ≤ b.2) (avg_shipping_time v) ∧
    ∀ x ∈ avg_shipping_time v,
      (∃ o ∈ v, o.product_category_name = some x.1 ∧ o.shipping_time ≠ none) ∧
      x.2 = ((shippingVals v x.1).map fun d => (d : Rat)).sum /
        ((shippingVals v x.1).length : Rat) := by
  simp only [avg_shipping_time]
  refine ⟨by simp, ?_, ?_⟩
  · exact (List.Pairwise.sublist (List.take_sublist 10 _)
      (List.sorted_mergeSort meanAsc_trans meanAsc_total _)).imp
        (fun h => by simpa [meanAsc] using h)
  · intro x hx
    have hx1 := List.mem_of_mem_take hx
    rw [List.mem_mergeSort] at hx1
    obtain ⟨c, hc, hfc⟩ := List.mem_filterMap.mp hx1
    by_cases h0 : shippingVals v c = []
    · rw [if_pos h0] at hfc
      exact absurd hfc (by simp)
    · rw [if_neg h0] at hfc
      obtain rfl := Option.some.inj hfc
      constructor
      · obtain ⟨d, hd⟩ := List.exists_mem_of_ne_nil _ h0
        obtain ⟨o, ho, hoeq⟩ := List.mem_filterMap.mp hd
        by_cases hco : o.product_category_name = some c
        · rw [if_pos hco] at hoeq
          refine ⟨o, ho, hco, ?_⟩
          rw [hoeq]
          exact fun hcon => Option.noConfusion hcon
        · rw [if_neg hco] at hoeq
          exact absurd hoeq (by simp)
      · rfl

/-- Claim C5: the average-shipping-time aggregation of any filtered view
returns at most 10 rows ordered by non-decreasing mean, where each row's
mean is the mean of the non-absent shipping times of its category, and a
category all of whose records have absent shipping_time never appears. -/
theorem C5_avg_shipping_time_spec (df : List Order) (p : FilterParams) :
    (avg_shipping_time (filtered_df df p)).length ≤ 10 ∧
    List.Pairwise (fun a b => a.2 ≤ b.2) (avg_shipping_time (filtered_df df p)) ∧
    ∀ x ∈ avg_shipping_time (filtered_df df p),
      (∃ o ∈ filtered_df df p,
        o.product_category_name = some x.1 ∧ o.shipping_time ≠ none) ∧
      x.2 = ((shippingVals (filtered_df df p) x.1).map fun d => (d : Rat)).sum /
        ((shippingVals (filtered_df df p) x.1).length : Rat) :=
  avg_shipping_time_props (filtered_df df p)

theorem ymLe_trans (a b c : Int × Nat) : ymLe a b → ymLe b c → ymLe a c := by
  simp only [ymLe, Bool.or_eq_true, Bool.and_eq_true, decide_eq_true_eq]
  omega

theorem ymLe_total (a b : Int × Nat) : ymLe a b || ymLe b a := by
  simp only [ymLe, Bool.or_eq_true, Bool.and_eq_true, decide_eq_true_eq]
  omega

/-- The loader always derives `year_month` from the purchase timestamp. -/
theorem load_data_year_month (rows : List RawOrder) :
    ∀ o ∈ load_data rows, o.year_month =
      (o.order_purchase_timestamp.year, o.order_purchase_timestamp.month) := by
  intro o ho
  obtain ⟨r, _, rfl⟩ := List.mem_map.mp ho
  rfl

/-- The general shape of `monthly_revenue` on a view every record of which
has a coherent `year_month` column (as the loader guarantees). -/
theorem monthly_revenue_props (v : List Order)
    (hcoh : ∀ o ∈ v, o.year_month =
      (o.order_purchase_timestamp.year, o.order_purchase_timestamp.month)) :
    (∀ x ∈ monthly_revenue v, x.1.1 = 2018) ∧
    List.Pairwise (fun a b => ymLe a.1 b.1 = true) (monthly_revenue v) ∧
    (∀ x ∈ monthly_revenue v,
      x.2 = ((v.filter fun o => decide (o.year_month = x.1)).map
        fun o => o.payment_value).sum) ∧
    (∀ ym, ym ∈ (monthly_revenue v).map Prod.fst ↔
      ∃ o ∈ v, o.order_purchase_timestamp.year = 2018 ∧ o.year_month = ym) := by
  have hkey : ∀ ym : Int × Nat,
      ym ∈ ((v.filter fun o => decide (o.order_purchase_timestamp.year = 2018)).map
        fun o => o.year_month) ↔
        ∃ o ∈ v, o.order_purchase_timestamp.year = 2018 ∧ o.year_month = ym := by
    intro ym
    simp only [List.mem_map, List.mem_filter, decide_eq_true_eq]
    constructor
    · rintro ⟨o, ⟨ho, hy⟩, rfl⟩
      exact ⟨o, ho, hy, rfl⟩
    · rintro ⟨o, ho, hy, rfl⟩
      exact ⟨o, ⟨ho, hy⟩, rfl⟩
  have hyear : ∀ ym : Int × Nat,
      (∃ o ∈ v, o.order_purchase_timestamp.year = 2018 ∧ o.year_month = ym) →
        ym.1 = 2018 := by
    rintro ym ⟨o, ho, hy, rfl⟩
    rw [hcoh o ho]
    exact hy
  refine ⟨?_, ?_, ?_, ?_⟩
  · intro x hx
    simp only [monthly_revenue] at hx
    obtain ⟨ym, hym, rfl⟩ := List.mem_map.mp hx
    rw [List.mem_mergeSort, List.mem_dedup] at hym
    exact hyear ym ((hkey ym).mp hym)
  · simp only [monthly_revenue]
    exact List.Pairwise.map _ (fun a b h => h)
      (List.sorted_mergeSort ymLe_trans ymLe_total _)
  · intro x hx
    simp only [monthly_revenue] at hx
    obtain ⟨ym, hym, rfl⟩ := List.mem_map.mp hx
    rw [List.mem_mergeSort, List.mem_dedup] at hym
    have h1 := hyear ym ((hkey ym).mp hym)
    have h2 : (v.filter fun o => decide (o.order_purchase_timestamp.year = 2018)).filter
        (fun o => decide (o.year_month = ym)) =
        v.filter fun o => decide (o.year_month = ym) := by
      rw [List.filter_filter]
      apply List.filter_congr
      intro o ho
      by_cases hym2 : o.year_month = ym
      · have h3 : o.order_purchase_timestamp.year = 2018 := by
          rw [← hym2] at h1
          rw [hcoh o ho] at h1
          exact h1
        simp [hym2, h3]
      · simp [hym2]
    rw [h2]
  · intro ym
    simp only [monthly_revenue]
    rw [List.map_map]
    have hid : (Prod.fst ∘ fun ym : Int × Nat =>
        (ym, (((v.filter fun o => decide (o.order_purchase_timestamp.year = 2018)).filter
          fun o => decide (o.year_month = ym)).map fun o => o.payment_value).sum)) =
        (id : Int × Nat → Int × Nat) := rfl
    rw [hid, List.map_id, List.mem_mergeSort, List.mem_dedup]
    exact hkey ym

/-- Claim C4: the monthly-revenue aggregation of a filtered view of loaded
data contains only year-month groups of purchase year 2018 (whatever the
date filter was), sums payment_value per group, is ordered ascending by
year_month, and contains a year-month key exactly when some record of the
view carries it (months without records are omitted, not zero-filled). -/
theorem C4_monthly_revenue_spec (rows : List RawOrder) (p : FilterParams) :
    (∀ x ∈ monthly_revenue (filtered_df (load_data rows) p), x.1.1 = 2018) ∧
    List.Pairwise (fun a b => ymLe a.1 b.1 = true)
      (monthly_revenue (filtered_df (load_data rows) p)) ∧
    (∀ x ∈ monthly_revenue (filtered_df (load_data rows) p),
      x.2 = (((filtered_df (load_data rows) p).filter
        fun o => decide (o.year_month = x.1)).map fun o => o.payment_value).sum) ∧
    (∀ ym, ym ∈ (monthly_revenue (filtered_df (load_data rows) p)).map Prod.fst ↔
      ∃ o ∈ filtered_df (load_data rows) p,
        o.order_purchase_timestamp.year = 2018 ∧ o.year_month = ym) :=
  monthly_revenue_props (filtered_df (load_data rows) p)
    (fun o ho => load_data_year_month rows o (List.mem_filter.mp ho).1)

/-! ## Observed-bound helper lemmas -/

theorem min?_getD_le_of_mem {α : Type} [LinearOrder α] {l : List α} {x : α}
    (d : α) (hx : x ∈ l) : l.min?.getD d ≤ x := by
  cases hm : l.min? with
  | none =>
    rw [List.min?_eq_none_iff] at hm
    subst hm
    cases hx
  | some m =>
    simp only [Option.getD_some]
    exact (List.le_min?_iff (fun a b c => le_min_iff) hm).1 (le_refl m) x hx

theorem le_max?_getD_of_mem {α : Type} [LinearOrder α] {l : List α} {x : α}
    (d : α) (hx : x ∈ l) : x ≤ l.max?.getD d := by
  cases hm : l.max? with
  | none =>
    rw [List.max?_eq_none_iff] at hm
    subst hm
    cases hx
  | some m =>
    simp only [Option.getD_some]
    exact (List.max?_le_iff (fun a b c => max_le_iff) hm).1 (le_refl m) x hx

theorem fdiv_1440_mul_le (a : Int) : a.fdiv 1440 * 1440 ≤ a := by
  have h1 := Int.fdiv_add_fmod a 1440
  have h2 := Int.fmod_nonneg' a (show (0 : Int) < 1440 by norm_num)
  omega

/-- A record whose category is absent: the dataset-wide filter defaults
exclude it, so full-bounds filtering is not the identity. -/
def oNoCat : Order :=
  ⟨⟨2018, 5, 200, 0⟩, none, none, some "voucher", 10, some "c3", none, 0, (2018, 5)⟩

/-- Counterexample to claim C2 as stated: on the one-record dataset whose
record has an absent category, filtering with the dataset-wide bounds
(full category and payment sets, observed date and price extremes) returns
the empty view, not the full dataset. -/
theorem C2_counterexample :
    filtered_df [oNoCat] (fullBoundsParams [oNoCat]) ≠ [oNoCat] := by
  decide

/-- Claim C2 (amended): the filtered view is always a subset of the
dataset, and filtering with the dataset-wide bounds returns exactly the
records with a present category and a present payment type whose purchase
instant is at most the midnight instant of the latest purchase date —
rather than always the full dataset. -/
theorem C2_subset_and_full_bounds (df : List Order) (p : FilterParams) :
    (∀ o ∈ filtered_df df p, o ∈ df) ∧
    filtered_df df (fullBoundsParams df) =
      df.filter fun o =>
        o.product_category_name.isSome && o.payment_type.isSome &&
        decide (tsAbsMinutes o.order_purchase_timestamp ≤
          (observedMaxTs df).fdiv 1440 * 1440) := by
  constructor
  · exact fun o ho => List.mem_of_mem_filter ho
  · apply List.filter_congr
    intro o ho
    have hstart : (fullBoundsParams df).start_date * 1440 ≤
        tsAbsMinutes o.order_purchase_timestamp := by
      refine le_trans (fdiv_1440_mul_le (observedMinTs df)) ?_
      simp only [observedMinTs]
      exact min?_getD_le_of_mem 0 (List.mem_map_of_mem _ ho)
    have hpmin : (fullBoundsParams df).min_price ≤ o.payment_value := by
      simp only [fullBoundsParams]
      exact min?_getD_le_of_mem 0 (List.mem_map_of_mem _ ho)
    have hpmax : o.payment_value ≤ (fullBoundsParams df).max_price := by
      simp only [fullBoundsParams]
      exact le_max?_getD_of_mem 0 (List.mem_map_of_mem _ ho)
    rw [Bool.eq_iff_iff]
    simp only [inFilter, fullBoundsParams, Bool.and_eq_true, decide_eq_true_eq,
      optionMatch_contains_iff, Option.isSome_iff_exists, and_assoc] at hstart hpmin hpmax ⊢
    constructor
    · rintro ⟨_, hend, ⟨c, hc, _⟩, ⟨t, ht, _⟩, _, _⟩
      exact ⟨⟨c, hc⟩, ⟨t, ht⟩, hend⟩
    · rintro ⟨⟨c, hc⟩, ⟨t, ht⟩, hend⟩
      refine ⟨hstart, hend, ⟨c, hc, ?_⟩, ⟨t, ht, ?_⟩, hpmin, hpmax⟩
      · rw [List.mem_dedup]
        exact List.mem_filterMap.mpr ⟨o, ho, hc⟩
      · rw [List.mem_dedup]
        exact List.mem_filterMap.mpr ⟨o, ho, ht⟩
